import Mathlib

/-!
Verification of the identity-linking and channel-provisioning core of the
donutmacro discord bot (src/unnamed/part_000, primary variant).

The JavaScript source is shallowly embedded: the three module-level `Map`s
become association lists inside a `World` record, each HTTP/interaction
handler becomes a pure function from its request data, the current clock
value and the outcomes of the external Discord calls (channel creation,
message send) to a response, a new `World`, and a trace of the external
calls and registry writes it performed.
-/

namespace DonutBot

/-- JS truthiness of a possibly-absent string value: `undefined` and the
empty string are falsy, every other string is truthy.  Mirrors checks such
as `if (!uuid || !message)` and `if (ADMIN_ROLE_ID)` in the source. -/
def jsTruthy : Option String → Bool
  | none => false
  | some s => s != ""

/-- `Map.get`: first binding for the key, if any. -/
def mapGet {α : Type} : List (String × α) → String → Option α
  | [], _ => none
  | p :: rest, k => if p.1 = k then some p.2 else mapGet rest k

/-- `Map.has`. -/
def mapHas {α : Type} (m : List (String × α)) (k : String) : Bool :=
  (mapGet m k).isSome

/-- `Map.set`: replace the existing binding in place, else append. -/
def mapSet {α : Type} (k : String) (v : α) : List (String × α) → List (String × α)
  | [] => [(k, v)]
  | p :: rest => if p.1 = k then (k, v) :: rest else p :: mapSet k v rest

/-- `Map.delete`. -/
def mapDelete {α : Type} (k : String) : List (String × α) → List (String × α)
  | [] => []
  | p :: rest => if p.1 = k then mapDelete k rest else p :: mapDelete k rest

/-- Number of bindings a key has in an association list. -/
def countKey {α : Type} (m : List (String × α)) (k : String) : Nat :=
  m.countP (fun p => p.1 == k)

/-- JS `String.prototype.toUpperCase` on the ASCII strings the bot
handles (verification codes, base-36 digits). -/
def jsToUpper (s : String) : String := ⟨s.data.map Char.toUpper⟩

/-- JS `String.prototype.toLowerCase` on ASCII strings. -/
def jsToLower (s : String) : String := ⟨s.data.map Char.toLower⟩

/-- JS `s.substring(a, b)` for `a ≤ b` (character slice, clamped). -/
def jsSubstring (s : String) (a b : Nat) : String :=
  ⟨(s.data.drop a).take (b - a)⟩

/-- The Discord permission flags (`PermissionFlagsBits`) the source uses. -/
inductive Perm where
  | ViewChannel
  | SendMessages
  | EmbedLinks
  | ReadMessageHistory
  | ManageMessages
deriving DecidableEq, Repr

/-- One element of a `permissionOverwrites` array: a subject id with its
allow list and deny list (an absent key in the JS object is the empty list). -/
structure Overwrite where
  id : String
  allow : List Perm
  deny : List Perm
deriving DecidableEq, Repr

/-- A `verificationCodes` entry: `{uuid, expires}`. -/
structure CodeData where
  uuid : String
  expires : Nat
deriving DecidableEq, Repr

/-- The mutable state the handlers touch: the three module-level maps plus
the guild's channel cache (`guild.channels.cache`, id to name), which
channel creation populates. -/
structure World where
  uuidChannelMap : List (String × String)
  uuidDiscordMap : List (String × String)
  verificationCodes : List (String × CodeData)
  guildChannels : List (String × String)
deriving DecidableEq, Repr

/-- Configuration and connection facts a request observes:
`client.user` (the bot identity, present once logged in), whether
`client.guilds.cache.get(GUILD_ID)` resolves, and the environment
variables the handlers read. -/
structure Env where
  clientUser : Option String
  guildExists : Bool
  guildId : String
  adminRoleId : Option String
  categoryId : Option String
deriving DecidableEq, Repr

/-- Trace of the externally visible calls a handler makes, plus Channel
Registry writes (`uuidChannelMap.set`). -/
inductive Effect where
  | createChannel (chName : String) (overwrites : List Overwrite)
  | sendMessage (channelId : String)
  | grantPermission (channelId : String) (userId : String) (allow : List Perm)
  | registryWrite (uuid : String) (channelId : String)
deriving DecidableEq, Repr

/-- Is the effect a channel creation? -/
def Effect.isCreate : Effect → Bool
  | .createChannel _ _ => true
  | _ => false

/-- Is the effect a Channel Registry write? -/
def Effect.isRegistryWrite : Effect → Bool
  | .registryWrite _ _ => true
  | _ => false

/-- `getUuidByCode` (src/unnamed/part_000 lines 82-93): look up a
verification code; absent gives null; an expired entry is deleted and null
returned; a live entry is deleted (use once) and its uuid returned. -/
def getUuidByCode (now : Nat) (code : String) (vc : List (String × CodeData)) :
    Option String × List (String × CodeData) :=
  match mapGet vc code with
  | none => (none, vc)
  | some d =>
    if now > d.expires then (none, mapDelete code vc)
    else (some d.uuid, mapDelete code vc)

/-- Fold a sequence of `getUuidByCode` calls (clock value, submitted code)
over the code store, keeping only the store. -/
def redeemAll (calls : List (Nat × String)) (vc : List (String × CodeData)) :
    List (String × CodeData) :=
  calls.foldl (fun m c => (getUuidByCode c.1 c.2 m).2) vc

/-- The code string built by the `/generate-code` handler:
`Math.random().toString(36).substring(2, 8).toUpperCase()`.  `rnd36`
stands for the `Math.random().toString(36)` result: `"0"` when the draw
is zero, otherwise `"0."` followed by the base-36 digits of the draw. -/
def genCode (rnd36 : String) : String :=
  jsToUpper (jsSubstring rnd36 2 8)

/-- JSON body of a `/generate-code` response (absent keys are `none`). -/
structure GenResp where
  status : Nat
  success : Option Bool
  code : Option String
  expiresIn : Option Nat
  alreadyLinked : Option Bool
deriving DecidableEq, Repr

/-- Result of a `/generate-code` request. -/
structure GenOut where
  resp : GenResp
  world : World
deriving DecidableEq, Repr

/-- The `POST /generate-code` handler (src/unnamed/part_000 lines
203-247): 400 on a missing (falsy) uuid; `{success:false,
alreadyLinked:true}` when the uuid is already in `uuidDiscordMap`;
otherwise store the generated code with a `now + 300000` ms expiry and
answer `{success:true, code, expiresIn:300}`. -/
def generateCode (now : Nat) (uuidField : Option String) (rnd36 : String) (w : World) :
    GenOut :=
  if !jsTruthy uuidField then
    ⟨⟨400, none, none, none, none⟩, w⟩
  else
    let uuid := uuidField.getD ""
    if mapHas w.uuidDiscordMap uuid then
      ⟨⟨200, some false, none, none, some true⟩, w⟩
    else
      let code := genCode rnd36
      ⟨⟨200, some true, some code, some 300, none⟩,
        { w with verificationCodes := mapSet code ⟨uuid, now + 300000⟩ w.verificationCodes }⟩

/-- Allow list used for the admin role, the linked user's overwrite, and
the `/linkmc` permission grant. -/
def memberAllow : List Perm := [.ViewChannel, .ReadMessageHistory, .SendMessages]

/-- Allow list of the bot's own overwrite. -/
def botAllow : List Perm :=
  [.ViewChannel, .SendMessages, .EmbedLinks, .ReadMessageHistory, .ManageMessages]

/-- The `permissionOverwrites` array built by the `/send-update` handler
(src/unnamed/part_000 lines 296-340): deny `ViewChannel` for `@everyone`
(the guild id), full access for the bot, then the admin role when
`ADMIN_ROLE_ID` is truthy, then the linked Discord user when
`uuidDiscordMap.get(uuid)` is truthy. -/
def buildOverwrites (env : Env) (botId : String) (links : List (String × String))
    (uuid : String) : List Overwrite :=
  let base : List Overwrite :=
    [⟨env.guildId, [], [.ViewChannel]⟩, ⟨botId, botAllow, []⟩]
  let withAdmin :=
    if jsTruthy env.adminRoleId then
      base ++ [⟨env.adminRoleId.getD "", memberAllow, []⟩]
    else base
  if jsTruthy (mapGet links uuid) then
    withAdmin ++ [⟨(mapGet links uuid).getD "", memberAllow, []⟩]
  else withAdmin

/-- Channel name derived from the uuid:
`` `updates-${uuid.substring(0, 8)}`.toLowerCase() ``. -/
def channelNameFor (uuid : String) : String :=
  jsToLower ("updates-" ++ jsSubstring uuid 0 8)

/-- JSON body of a `/send-update` response. -/
structure UpdateResp where
  status : Nat
  success : Bool
  channelId : Option String
  channelName : Option String
deriving DecidableEq, Repr

/-- Result of a `/send-update` request. -/
structure UpdateOut where
  resp : UpdateResp
  world : World
  effects : List Effect
deriving DecidableEq, Repr

/-- The `POST /send-update` handler (src/unnamed/part_000 lines 250-397).
`createResult` is the outcome of `guild.channels.create` (the new channel
id, or `none` when the call throws); `sendOk` is whether `channel.send`
succeeds.  A created channel enters the guild cache under its name, and
its id is written to `uuidChannelMap`. -/
def sendUpdate (env : Env) (uuidField msgField : Option String)
    (createResult : Option String) (sendOk : Bool) (w : World) : UpdateOut :=
  if !jsTruthy uuidField || !jsTruthy msgField then
    ⟨⟨400, false, none, none⟩, w, []⟩
  else
    match env.clientUser with
    | none => ⟨⟨503, false, none, none⟩, w, []⟩
    | some botId =>
      if !env.guildExists then ⟨⟨500, false, none, none⟩, w, []⟩
      else
        let uuid := uuidField.getD ""
        let channel : Option String :=
          match mapGet w.uuidChannelMap uuid with
          | some cid => if cid != "" && mapHas w.guildChannels cid then some cid else none
          | none => none
        match channel with
        | some cid =>
          if sendOk then
            ⟨⟨200, true, some cid, mapGet w.guildChannels cid⟩, w, [.sendMessage cid]⟩
          else
            ⟨⟨500, false, none, none⟩, w, [.sendMessage cid]⟩
        | none =>
          let chName := channelNameFor uuid
          let overwrites := buildOverwrites env botId w.uuidDiscordMap uuid
          match createResult with
          | none => ⟨⟨500, false, none, none⟩, w, [.createChannel chName overwrites]⟩
          | some cid =>
            let w2 : World :=
              { w with
                  guildChannels := mapSet cid chName w.guildChannels,
                  uuidChannelMap := mapSet uuid cid w.uuidChannelMap }
            if sendOk then
              ⟨⟨200, true, some cid, some chName⟩, w2,
                [.createChannel chName overwrites, .registryWrite uuid cid, .sendMessage cid]⟩
            else
              ⟨⟨500, false, none, none⟩, w2,
                [.createChannel chName overwrites, .registryWrite uuid cid, .sendMessage cid]⟩

/-- Reply of the `/linkmc` slash command. -/
structure LinkResp where
  ok : Bool
  uuidShort : Option String
deriving DecidableEq, Repr

/-- Result of a `/linkmc` invocation. -/
structure LinkOut where
  resp : LinkResp
  world : World
  effects : List Effect
deriving DecidableEq, Repr

/-- The `/linkmc` interaction handler (src/unnamed/part_000 lines
124-171): uppercase the submitted code, redeem it through
`getUuidByCode`; on success write the link into `uuidDiscordMap` and, when
`uuidChannelMap` has a truthy channel id that still resolves in the guild
cache, grant the invoking user view, read-history and send access. -/
def linkmc (now : Nat) (rawCode : String) (userId : String) (w : World) : LinkOut :=
  let code := jsToUpper rawCode
  let r := getUuidByCode now code w.verificationCodes
  let w1 : World := { w with verificationCodes := r.2 }
  match r.1 with
  | none => ⟨⟨false, none⟩, w1, []⟩
  | some uuid =>
    let w2 : World := { w1 with uuidDiscordMap := mapSet uuid userId w1.uuidDiscordMap }
    let effects :=
      match mapGet w2.uuidChannelMap uuid with
      | some cid =>
        if cid != "" && mapHas w2.guildChannels cid then
          [Effect.grantPermission cid userId memberAllow]
        else []
      | none => []
    ⟨⟨true, some (jsSubstring uuid 0 8)⟩, w2, effects⟩

/-- The permission set as §3 of the spec words it: default-deny for the
general audience, full access for the service identity, an admin-role
allow exactly when an administrative role is configured (non-empty), and
a linked-account allow exactly when the Account Link Registry has an
entry for the uuid.  Written from the spec, to be compared with
`buildOverwrites`. -/
def specPermissionSet (env : Env) (botId : String) (links : List (String × String))
    (uuid : String) : List Overwrite :=
  [⟨env.guildId, [], [.ViewChannel]⟩, ⟨botId, botAllow, []⟩]
  ++ (if jsTruthy env.adminRoleId then [⟨env.adminRoleId.getD "", memberAllow, []⟩] else [])
  ++ (match mapGet links uuid with
      | some d => [⟨d, memberAllow, []⟩]
      | none => [])

/-! ### Association-list lemmas -/

theorem mapGet_mapSet_self {α : Type} (k : String) (v : α) (m : List (String × α)) :
    mapGet (mapSet k v m) k = some v := by
  induction m with
  | nil => simp [mapSet, mapGet]
  | cons p rest ih =>
    by_cases h : p.1 = k
    · simp [mapSet, mapGet, h]
    · simp [mapSet, mapGet, h, ih]

theorem mapGet_mapSet_ne {α : Type} (k k2 : String) (v : α) (m : List (String × α))
    (h : k ≠ k2) : mapGet (mapSet k v m) k2 = mapGet m k2 := by
  induction m with
  | nil => simp [mapSet, mapGet, h]
  | cons p rest ih =>
    by_cases hp : p.1 = k
    · subst hp
      simp [mapSet, mapGet, h]
    · simp [mapSet, mapGet, hp, ih]

theorem mapGet_mapDelete_self {α : Type} (k : String) (m : List (String × α)) :
    mapGet (mapDelete k m) k = none := by
  induction m with
  | nil => simp [mapDelete, mapGet]
  | cons p rest ih =>
    by_cases h : p.1 = k
    · simp [mapDelete, h, ih]
    · simp [mapDelete, mapGet, h, ih]

theorem mapGet_mapDelete_ne {α : Type} (k k2 : String) (m : List (String × α))
    (h : k ≠ k2) : mapGet (mapDelete k m) k2 = mapGet m k2 := by
  induction m with
  | nil => simp [mapDelete]
  | cons p rest ih =>
    by_cases hp : p.1 = k
    · subst hp
      simp [mapDelete, mapGet, h, ih, Ne.symm h]
    · simp [mapDelete, mapGet, hp, ih]

theorem mapGet_mapDelete_none {α : Type} (k k2 : String) (m : List (String × α))
    (h : mapGet m k2 = none) : mapGet (mapDelete k m) k2 = none := by
  by_cases hk : k = k2
  · subst hk
    exact mapGet_mapDelete_self k m
  · rw [mapGet_mapDelete_ne k k2 m hk]
    exact h

/-! ### getUuidByCode store lemmas -/

theorem getUuidByCode_store (now : Nat) (code : String) (vc : List (String × CodeData)) :
    (getUuidByCode now code vc).2 = vc ∨ (getUuidByCode now code vc).2 = mapDelete code vc := by
  unfold getUuidByCode
  match h : mapGet vc code with
  | none => simp
  | some d =>
    by_cases he : now > d.expires
    · simp [he]
    · simp [he]

theorem getUuidByCode_preserves_none (now : Nat) (code c : String)
    (vc : List (String × CodeData)) (h : mapGet vc c = none) :
    mapGet (getUuidByCode now code vc).2 c = none := by
  rcases getUuidByCode_store now code vc with hs | hs
  · rw [hs]; exact h
  · rw [hs]; exact mapGet_mapDelete_none code c vc h

theorem redeemAll_preserves_none (calls : List (Nat × String)) (c : String)
    (vc : List (String × CodeData)) (h : mapGet vc c = none) :
    mapGet (redeemAll calls vc) c = none := by
  induction calls generalizing vc with
  | nil => exact h
  | cons p rest ih =>
    exact ih _ (getUuidByCode_preserves_none p.1 p.2 c vc h)

theorem getUuidByCode_of_none (now : Nat) (code : String)
    (vc : List (String × CodeData)) (h : mapGet vc code = none) :
    (getUuidByCode now code vc).1 = none := by
  unfold getUuidByCode
  rw [h]

/-! ### Uppercasing lemmas -/

theorem char_toUpper_idem (c : Char) : Char.toUpper (Char.toUpper c) = Char.toUpper c := by
  by_cases h : c.toNat ≥ 97 ∧ c.toNat ≤ 122
  · have h1 : Char.toUpper c = Char.ofNat (c.toNat - 32) := by
      unfold Char.toUpper
      simp [h]
    rw [h1]
    obtain ⟨h97, h122⟩ := h
    set n := c.toNat with hn
    interval_cases n <;> decide
  · have h1 : Char.toUpper c = c := by
      unfold Char.toUpper
      simp [h]
    rw [h1]
    exact h1

theorem jsToUpper_idem (s : String) : jsToUpper (jsToUpper s) = jsToUpper s := by
  unfold jsToUpper
  rw [List.map_map]
  congr 1
  induction s.data with
  | nil => rfl
  | cons c cs ih => simp [char_toUpper_idem, ih]

theorem jsTruthy_some_ne (s : String) (h : s ≠ "") : jsTruthy (some s) = true := by
  simp [jsTruthy, h]

/-! ### Claim theorems -/

/-- C1: `getUuidByCode` is single-use.  A successful lookup removes the
code's entry; a call after the expiry timestamp has passed returns absent
and removes the entry; and once the entry is gone, any further sequence of
`getUuidByCode` calls leaves the code unbound and every call on it returns
absent, so a code never becomes redeemable again under the redeem
operation. -/
theorem getUuidByCode_single_use
    (vc : List (String × CodeData)) (code : String) (now : Nat) :
    (∀ u, (getUuidByCode now code vc).1 = some u →
        mapGet (getUuidByCode now code vc).2 code = none)
    ∧ (∀ d, mapGet vc code = some d → now > d.expires →
        (getUuidByCode now code vc).1 = none
          ∧ mapGet (getUuidByCode now code vc).2 code = none)
    ∧ (mapGet vc code = none →
        ∀ calls now2,
          mapGet (redeemAll calls vc) code = none
            ∧ (getUuidByCode now2 code (redeemAll calls vc)).1 = none) := by
  refine ⟨?_, ?_, ?_⟩
  · intro u hu
    unfold getUuidByCode at hu ⊢
    cases h : mapGet vc code with
    | none =>
      rw [h] at hu
      simp at hu
    | some d =>
      rw [h] at hu
      by_cases he : now > d.expires
      · simp [he] at hu
      · simp [he, mapGet_mapDelete_self]
  · intro d hd he
    unfold getUuidByCode
    rw [hd]
    simp [he, mapGet_mapDelete_self]
  · intro h calls now2
    have h1 := redeemAll_preserves_none calls code vc h
    exact ⟨h1, getUuidByCode_of_none now2 code _ h1⟩

/-- Witness for C1 at a concrete store: redeeming a live code removes it,
an expired call removes it and returns absent, and an emptied store never
resolves the code again across further calls. -/
theorem getUuidByCode_single_use_witness :
    mapGet (getUuidByCode 500 "AB2C3D" [("AB2C3D", ⟨"abc-123", 1000⟩)]).2 "AB2C3D" = none
    ∧ ((getUuidByCode 1500 "AB2C3D" [("AB2C3D", ⟨"abc-123", 1000⟩)]).1 = none
        ∧ mapGet (getUuidByCode 1500 "AB2C3D" [("AB2C3D", ⟨"abc-123", 1000⟩)]).2 "AB2C3D" = none)
    ∧ mapGet (redeemAll [(600, "AB2C3D"), (700, "ZZ")] []) "AB2C3D" = none :=
  ⟨(getUuidByCode_single_use [("AB2C3D", ⟨"abc-123", 1000⟩)] "AB2C3D" 500).1
      "abc-123" (by decide),
   (getUuidByCode_single_use [("AB2C3D", ⟨"abc-123", 1000⟩)] "AB2C3D" 1500).2.1
      ⟨"abc-123", 1000⟩ (by decide) (by decide),
   ((getUuidByCode_single_use [] "AB2C3D" 0).2.2 (by decide)
      [(600, "AB2C3D"), (700, "ZZ")] 800).1⟩

theorem sendUpdate_registryWrites_le_one (env : Env) (uuidField msgField createResult : Option String)
    (sendOk : Bool) (w : World) :
    (sendUpdate env uuidField msgField createResult sendOk w).effects.countP
      Effect.isRegistryWrite ≤ 1 := by
  unfold sendUpdate
  repeat' split
  all_goals try simp [Effect.isRegistryWrite, List.countP_cons, List.countP_nil]
  all_goals rcases hmc : mapGet w.uuidChannelMap (uuidField.getD "") with _ | cid
  all_goals simp only [hmc]
  all_goals try split_ifs
  all_goals simp [Effect.isRegistryWrite, List.countP_cons, List.countP_nil]

/-- C2: for a valid request on a uuid with no ChannelRecord, `/send-update`
performs exactly one channel creation and exactly one Channel Registry
write, recording the new channel id; a second valid call for the same uuid
performs no creation and no registry write, sends to the recorded channel,
and leaves the state unchanged; and every `/send-update` call, whatever its
input, performs at most one Channel Registry write. -/
theorem sendUpdate_get_or_create (env : Env) (botId uuid msg msg2 cid : String)
    (createResult2 : Option String) (sendOk2 : Bool) (w : World) (out1 out2 : UpdateOut)
    (hu : uuid ≠ "") (hm : msg ≠ "") (hm2 : msg2 ≠ "")
    (hbot : env.clientUser = some botId) (hg : env.guildExists = true)
    (hrec : mapGet w.uuidChannelMap uuid = none) (hcid : cid ≠ "")
    (h1 : out1 = sendUpdate env (some uuid) (some msg) (some cid) true w)
    (h2 : out2 = sendUpdate env (some uuid) (some msg2) createResult2 sendOk2 out1.world) :
    (out1.effects.countP Effect.isCreate = 1
      ∧ out1.effects.countP Effect.isRegistryWrite = 1
      ∧ mapGet out1.world.uuidChannelMap uuid = some cid
      ∧ out1.resp.status = 200 ∧ out1.resp.channelId = some cid)
    ∧ (out2.effects.countP Effect.isCreate = 0
      ∧ out2.effects.countP Effect.isRegistryWrite = 0
      ∧ Effect.sendMessage cid ∈ out2.effects
      ∧ out2.world = out1.world)
    ∧ ∀ (env2 : Env) (uf mf cr : Option String) (so : Bool) (w2 : World),
        (sendUpdate env2 uf mf cr so w2).effects.countP Effect.isRegistryWrite ≤ 1 := by
  have e1 : sendUpdate env (some uuid) (some msg) (some cid) true w =
      ⟨⟨200, true, some cid, some (channelNameFor uuid)⟩,
        { w with
            guildChannels := mapSet cid (channelNameFor uuid) w.guildChannels,
            uuidChannelMap := mapSet uuid cid w.uuidChannelMap },
        [.createChannel (channelNameFor uuid) (buildOverwrites env botId w.uuidDiscordMap uuid),
          .registryWrite uuid cid, .sendMessage cid]⟩ := by
    simp [sendUpdate, jsTruthy, hu, hm, hbot, hg, hrec]
  subst h1
  rw [e1] at h2 ⊢
  have e2 : ∀ r : UpdateOut, r = out2 → (r.effects.countP Effect.isCreate = 0
      ∧ r.effects.countP Effect.isRegistryWrite = 0
      ∧ Effect.sendMessage cid ∈ r.effects
      ∧ r.world =
        { w with
            guildChannels := mapSet cid (channelNameFor uuid) w.guildChannels,
            uuidChannelMap := mapSet uuid cid w.uuidChannelMap }) := by
    intro r hr
    subst hr
    rw [h2]
    simp only [sendUpdate]
    rw [hbot]
    simp [jsTruthy, hu, hm2, hg, mapGet_mapSet_self, mapHas, hcid]
    cases sendOk2 <;>
      simp [Effect.isCreate, Effect.isRegistryWrite, List.countP_cons, List.countP_nil]
  refine ⟨?_, ?_, ?_⟩
  · simp [Effect.isCreate, Effect.isRegistryWrite, List.countP_cons, List.countP_nil,
      mapGet_mapSet_self]
  · exact (e2 out2 rfl)
  · intro env2 uf mf cr so w2
    exact sendUpdate_registryWrites_le_one env2 uf mf cr so w2

/-- Witness for C2: on an empty state, the first call creates a channel
and the second call for the same uuid does not. -/
theorem sendUpdate_get_or_create_witness :
    ((sendUpdate ⟨some "BOT", true, "G", none, none⟩ (some "abc-123") (some "hello")
        (some "C1") true ⟨[], [], [], []⟩).effects.countP Effect.isCreate = 1)
    ∧ ((sendUpdate ⟨some "BOT", true, "G", none, none⟩ (some "abc-123") (some "again") none true
        (sendUpdate ⟨some "BOT", true, "G", none, none⟩ (some "abc-123") (some "hello")
          (some "C1") true ⟨[], [], [], []⟩).world).effects.countP Effect.isCreate = 0) := by
  have h := sendUpdate_get_or_create ⟨some "BOT", true, "G", none, none⟩ "BOT" "abc-123"
    "hello" "again" "C1" none true ⟨[], [], [], []⟩ _ _ (by decide) (by decide) (by decide)
    rfl rfl (by decide) (by decide) rfl rfl
  exact ⟨h.1.1, h.2.1.1⟩

/-- C3: when `/send-update` creates a channel for a uuid with no
ChannelRecord, the permission overwrite array it passes to channel
creation is exactly: deny-view for `@everyone`, full access for the bot,
an allow entry for the admin role exactly when one is configured, and an
allow entry for the uuid's linked account exactly when the Account Link
Registry has an entry for the uuid (registry entries are Discord user
ids and hence non-empty, which the `hlink` hypothesis records). -/
theorem sendUpdate_creation_permission_set (env : Env) (botId uuid msg : String)
    (createResult : Option String) (sendOk : Bool) (w : World)
    (hu : uuid ≠ "") (hm : msg ≠ "")
    (hbot : env.clientUser = some botId) (hg : env.guildExists = true)
    (hrec : mapGet w.uuidChannelMap uuid = none)
    (hlink : ∀ d, mapGet w.uuidDiscordMap uuid = some d → d ≠ "") :
    Effect.createChannel (channelNameFor uuid)
        (specPermissionSet env botId w.uuidDiscordMap uuid)
      ∈ (sendUpdate env (some uuid) (some msg) createResult sendOk w).effects := by
  have hbo : buildOverwrites env botId w.uuidDiscordMap uuid
      = specPermissionSet env botId w.uuidDiscordMap uuid := by
    unfold buildOverwrites specPermissionSet
    cases hd : mapGet w.uuidDiscordMap uuid with
    | none =>
      cases har : env.adminRoleId with
      | none => simp [jsTruthy, hd]
      | some r => by_cases hr : r = "" <;> simp [jsTruthy, hd, hr]
    | some d =>
      have hdne : d ≠ "" := hlink d hd
      cases har : env.adminRoleId with
      | none => simp [jsTruthy, hd, hdne]
      | some r => by_cases hr : r = "" <;> simp [jsTruthy, hd, hr, hdne]
  rcases createResult with _ | cid <;> cases sendOk <;>
    simp [sendUpdate, jsTruthy, hu, hm, hbot, hg, hrec, hbo]

/-- Witness for C3 with an admin role configured and a linked account
present: the created channel carries all four overwrite entries. -/
theorem sendUpdate_creation_permission_set_witness :
    Effect.createChannel (channelNameFor "abc-123")
        (specPermissionSet ⟨some "BOT", true, "G", some "ADMIN", none⟩ "BOT"
          [("abc-123", "U1")] "abc-123")
      ∈ (sendUpdate ⟨some "BOT", true, "G", some "ADMIN", none⟩ (some "abc-123")
          (some "Quest done") (some "C1") true ⟨[], [("abc-123", "U1")], [], []⟩).effects :=
  sendUpdate_creation_permission_set ⟨some "BOT", true, "G", some "ADMIN", none⟩ "BOT"
    "abc-123" "Quest done" (some "C1") true ⟨[], [("abc-123", "U1")], [], []⟩
    (by decide) (by decide) rfl rfl (by decide)
    (by
      intro d h
      simp [mapGet] at h
      subst h
      decide)

theorem linkmc_success (now : Nat) (raw userId uuid : String) (exp : Nat) (w : World)
    (hvc : mapGet w.verificationCodes (jsToUpper raw) = some ⟨uuid, exp⟩)
    (hnow : now ≤ exp) :
    linkmc now raw userId w =
      ⟨⟨true, some (jsSubstring uuid 0 8)⟩,
        { w with
            verificationCodes := mapDelete (jsToUpper raw) w.verificationCodes,
            uuidDiscordMap := mapSet uuid userId w.uuidDiscordMap },
        match mapGet w.uuidChannelMap uuid with
        | some cid =>
          if cid != "" && mapHas w.guildChannels cid then
            [Effect.grantPermission cid userId memberAllow]
          else []
        | none => []⟩ := by
  have hred : getUuidByCode now (jsToUpper raw) w.verificationCodes
      = (some uuid, mapDelete (jsToUpper raw) w.verificationCodes) := by
    unfold getUuidByCode
    rw [hvc]
    simp [not_lt.mpr hnow]
  simp only [linkmc, hred]

/-- C4 counterexample: the claim as stated fails when the recorded channel
no longer resolves in the guild cache.  Here `"u1"` has ChannelRecord
`"c1"`, the cache is empty, the code redeems successfully, yet no
permission grant call is issued. -/
theorem linkmc_grant_counterexample :
    mapGet (World.mk [("u1", "c1")] [] [("AB", ⟨"u1", 1000⟩)] []).uuidChannelMap "u1"
        = some "c1"
    ∧ (linkmc 0 "AB" "U9" (World.mk [("u1", "c1")] [] [("AB", ⟨"u1", 1000⟩)] [])).resp.ok
        = true
    ∧ (linkmc 0 "AB" "U9" (World.mk [("u1", "c1")] [] [("AB", ⟨"u1", 1000⟩)] [])).effects
        = [] := by
  decide

/-- C4 (amended): when a code is redeemed for a uuid whose ChannelRecord
exists and whose recorded channel still resolves in the guild cache, the
flow issues exactly one permission grant giving the requesting user view,
read-history and send access; when the code is redeemed before any
channel exists, a later `/send-update` for that uuid puts the linked
user's allow entry into the creation-time permission set. -/
theorem linkmc_grant_amended (w : World) (rawCode userId uuid : String) (exp now : Nat)
    (hvc : mapGet w.verificationCodes (jsToUpper rawCode) = some ⟨uuid, exp⟩)
    (hnow : now ≤ exp) :
    (∀ cid, mapGet w.uuidChannelMap uuid = some cid → cid ≠ "" →
        mapHas w.guildChannels cid = true →
        (linkmc now rawCode userId w).resp.ok = true
        ∧ (linkmc now rawCode userId w).effects
            = [Effect.grantPermission cid userId memberAllow]
        ∧ mapGet (linkmc now rawCode userId w).world.uuidDiscordMap uuid = some userId)
    ∧ (mapGet w.uuidChannelMap uuid = none →
        ∀ (env : Env) (botId msg : String) (createResult : Option String) (sendOk : Bool),
          env.clientUser = some botId → env.guildExists = true →
          uuid ≠ "" → msg ≠ "" → userId ≠ "" →
          ∃ ow, Effect.createChannel (channelNameFor uuid) ow
              ∈ (sendUpdate env (some uuid) (some msg) createResult sendOk
                  (linkmc now rawCode userId w).world).effects
            ∧ Overwrite.mk userId memberAllow [] ∈ ow) := by
  have hout := linkmc_success now rawCode userId uuid exp w hvc hnow
  constructor
  · intro cid hrec hcne hcache
    rw [hout]
    simp [hrec, hcne, hcache, mapGet_mapSet_self]
  · intro hrec env botId msg createResult sendOk hbot hg huuid hmsg huser
    rw [hout]
    refine ⟨buildOverwrites env botId (mapSet uuid userId w.uuidDiscordMap) uuid, ?_, ?_⟩
    · rcases createResult with _ | cid2 <;> cases sendOk <;>
        simp [sendUpdate, jsTruthy, huuid, hmsg, hbot, hg, hrec]
    · unfold buildOverwrites
      simp [mapGet_mapSet_self, jsTruthy, huser]

/-- Witness for C4 (amended): with the channel still cached, redeeming
grants the user access; the same theorem applied to a channel-less uuid
shows the linked user lands in the creation-time permission set. -/
theorem linkmc_grant_amended_witness :
    ((linkmc 0 "AB" "U9" ⟨[("u1", "c1")], [], [("AB", ⟨"u1", 1000⟩)], [("c1", "chan")]⟩).resp.ok
        = true
      ∧ (linkmc 0 "AB" "U9"
          ⟨[("u1", "c1")], [], [("AB", ⟨"u1", 1000⟩)], [("c1", "chan")]⟩).effects
        = [Effect.grantPermission "c1" "U9" memberAllow])
    ∧ ∃ ow, Effect.createChannel (channelNameFor "u1") ow
          ∈ (sendUpdate ⟨some "BOT", true, "G", none, none⟩ (some "u1") (some "hi")
              (some "C7") true
              (linkmc 0 "AB" "U9" ⟨[], [], [("AB", ⟨"u1", 1000⟩)], []⟩).world).effects
        ∧ Overwrite.mk "U9" memberAllow [] ∈ ow := by
  constructor
  · have h := (linkmc_grant_amended
      ⟨[("u1", "c1")], [], [("AB", ⟨"u1", 1000⟩)], [("c1", "chan")]⟩
      "AB" "U9" "u1" 1000 0 (by decide) (by decide)).1 "c1" (by decide) (by decide) (by decide)
    exact ⟨h.1, h.2.1⟩
  · exact (linkmc_grant_amended ⟨[], [], [("AB", ⟨"u1", 1000⟩)], []⟩
      "AB" "U9" "u1" 1000 0 (by decide) (by decide)).2 (by decide)
      ⟨some "BOT", true, "G", none, none⟩ "BOT" "hi" (some "C7") true rfl rfl
      (by decide) (by decide) (by decide)

/-- C5 counterexample: the empty string is a uuid absent from the Account
Link Registry, yet `/generate-code` answers 400 with no code and no
`success: true`, because the handler's falsiness check rejects it before
the registry is consulted. -/
theorem generateCode_empty_uuid_counterexample :
    mapGet (World.mk [] [] [] []).uuidDiscordMap "" = none
    ∧ (generateCode 0 (some "") "0.k2j3l4m5" (World.mk [] [] [] [])).resp.status = 400
    ∧ (generateCode 0 (some "") "0.k2j3l4m5" (World.mk [] [] [] [])).resp.success ≠ some true
    ∧ (generateCode 0 (some "") "0.k2j3l4m5" (World.mk [] [] [] [])).resp.code = none := by
  decide

/-- C5 (amended to non-empty uuids): for a non-empty uuid already linked,
`/generate-code` answers 200 with `success: false` and
`alreadyLinked: true`, stores nothing and returns no code; for a
non-empty unlinked uuid it answers 200 with `success: true`, the
generated code and `expiresIn: 300`, storing the code with a
`now + 300000` ms expiry. -/
theorem generateCode_linked_vs_new (now : Nat) (uuid rnd36 : String) (w : World)
    (hu : uuid ≠ "") :
    (mapHas w.uuidDiscordMap uuid = true →
        (generateCode now (some uuid) rnd36 w).resp
            = ⟨200, some false, none, none, some true⟩
        ∧ (generateCode now (some uuid) rnd36 w).world = w)
    ∧ (mapHas w.uuidDiscordMap uuid = false →
        (generateCode now (some uuid) rnd36 w).resp
            = ⟨200, some true, some (genCode rnd36), some 300, none⟩
        ∧ (generateCode now (some uuid) rnd36 w).world.verificationCodes
            = mapSet (genCode rnd36) ⟨uuid, now + 300000⟩ w.verificationCodes) := by
  constructor <;> intro h <;> simp [generateCode, jsTruthy, hu, h]

/-- Witness for C5 (amended), one linked and one unlinked uuid. -/
theorem generateCode_linked_vs_new_witness :
    ((generateCode 0 (some "abc-123") "0.qqqqqqqq" ⟨[], [("abc-123", "U1")], [], []⟩).resp
        = ⟨200, some false, none, none, some true⟩)
    ∧ ((generateCode 0 (some "xyz-999") "0.qqqqqqqq" ⟨[], [("abc-123", "U1")], [], []⟩).resp
        = ⟨200, some true, some "QQQQQQ", some 300, none⟩) := by
  have h1 := (generateCode_linked_vs_new 0 "abc-123" "0.qqqqqqqq"
    ⟨[], [("abc-123", "U1")], [], []⟩ (by decide)).1 (by decide)
  have h2 := (generateCode_linked_vs_new 0 "xyz-999" "0.qqqqqqqq"
    ⟨[], [("abc-123", "U1")], [], []⟩ (by decide)).2 (by decide)
  refine ⟨h1.1, ?_⟩
  rw [h2.1]
  decide

/-- C6 (code bug): the generated token is not of fixed length six.  With
`Math.random() = 0.5` the base-36 string is `"0.i"`, so the stored and
returned code is the single character `"I"` (with `Math.random() = 0` it
would even be empty), although the entry is correctly bound to the
requesting uuid with a 300-second (300000 ms) expiry. -/
theorem generateCode_short_code :
    genCode "0.i" = "I"
    ∧ (genCode "0.i").length = 1
    ∧ genCode "0" = ""
    ∧ (generateCode 1000 (some "abc-123") "0.i" (World.mk [] [] [] [])).resp.code = some "I"
    ∧ (generateCode 1000 (some "abc-123") "0.i" (World.mk [] [] [] [])).resp.expiresIn
        = some 300
    ∧ mapGet (generateCode 1000 (some "abc-123") "0.i"
        (World.mk [] [] [] [])).world.verificationCodes "I"
        = some ⟨"abc-123", 301000⟩ := by
  decide

/-- C8: a `/send-update` request lacking `uuid` or lacking `message` gets
status 400, leaves the whole in-memory state (all three tables and the
channel cache) unchanged, and performs no external call and no registry
write. -/
theorem sendUpdate_missing_fields (env : Env) (uuidField msgField : Option String)
    (createResult : Option String) (sendOk : Bool) (w : World)
    (h : uuidField = none ∨ msgField = none) :
    (sendUpdate env uuidField msgField createResult sendOk w).resp.status = 400
    ∧ (sendUpdate env uuidField msgField createResult sendOk w).world = w
    ∧ (sendUpdate env uuidField msgField createResult sendOk w).effects = [] := by
  rcases h with h | h <;> subst h <;> simp [sendUpdate, jsTruthy]

/-- Witness for C8: a body with a message but no uuid is rejected with 400
and no state change or effect. -/
theorem sendUpdate_missing_fields_witness :
    (sendUpdate ⟨some "BOT", true, "G", none, none⟩ none (some "hi") (some "C1") true
        ⟨[], [], [], []⟩).resp.status = 400
    ∧ (sendUpdate ⟨some "BOT", true, "G", none, none⟩ none (some "hi") (some "C1") true
        ⟨[], [], [], []⟩).world = ⟨[], [], [], []⟩
    ∧ (sendUpdate ⟨some "BOT", true, "G", none, none⟩ none (some "hi") (some "C1") true
        ⟨[], [], [], []⟩).effects = [] :=
  sendUpdate_missing_fields ⟨some "BOT", true, "G", none, none⟩ none (some "hi")
    (some "C1") true ⟨[], [], [], []⟩ (Or.inl rfl)

/-- C7: issued codes are already uppercase (the generator ends in
`toUpperCase()`), and redeeming through `/linkmc` uppercases the submitted
string before the lookup, so any case variant of a live issued code
redeems successfully and links the code's uuid to the submitting user. -/
theorem linkmc_case_insensitive :
    (∀ rnd36, jsToUpper (genCode rnd36) = genCode rnd36)
    ∧ ∀ (w : World) (c t userId uuid : String) (exp now : Nat),
        mapGet w.verificationCodes c = some ⟨uuid, exp⟩ → jsToUpper c = c →
        jsToUpper t = jsToUpper c → now ≤ exp →
        (linkmc now t userId w).resp.ok = true
        ∧ mapGet (linkmc now t userId w).world.uuidDiscordMap uuid = some userId := by
  constructor
  · intro rnd36
    unfold genCode
    exact jsToUpper_idem _
  · intro w c t userId uuid exp now hvc hcu htu hnow
    have hvt : mapGet w.verificationCodes (jsToUpper t) = some ⟨uuid, exp⟩ := by
      rw [htu, hcu]
      exact hvc
    rw [linkmc_success now t userId uuid exp w hvt hnow]
    simp [mapGet_mapSet_self]

/-- Witness for C7: the code issued as `"X7K2PQ"` is redeemed with the
lowercase submission `"x7k2pq"`. -/
theorem linkmc_case_insensitive_witness :
    (linkmc 0 "x7k2pq" "U1" ⟨[], [], [("X7K2PQ", ⟨"abc-123", 5000⟩)], []⟩).resp.ok = true
    ∧ mapGet (linkmc 0 "x7k2pq" "U1"
        ⟨[], [], [("X7K2PQ", ⟨"abc-123", 5000⟩)], []⟩).world.uuidDiscordMap "abc-123"
        = some "U1" :=
  linkmc_case_insensitive.2 ⟨[], [], [("X7K2PQ", ⟨"abc-123", 5000⟩)], []⟩
    "X7K2PQ" "x7k2pq" "U1" "abc-123" 5000 0 (by decide) (by decide) (by decide) (by decide)

theorem countKey_mapSet_ne {α : Type} (k u : String) (v : α) (m : List (String × α))
    (h : k ≠ u) : countKey (mapSet k v m) u = countKey m u := by
  induction m with
  | nil => simp [mapSet, countKey, List.countP_cons, List.countP_nil, h]
  | cons p rest ih =>
    by_cases hp : p.1 = k
    · simp [mapSet, countKey, List.countP_cons, List.countP_nil, hp, h]
    · simp only [mapSet, hp, if_false, countKey, List.countP_cons]
      unfold countKey at ih
      omega

theorem countKey_mapSet_self {α : Type} (u : String) (v : α) (m : List (String × α))
    (h : countKey m u ≤ 1) : countKey (mapSet u v m) u ≤ 1 := by
  induction m with
  | nil => simp [mapSet, countKey, List.countP_cons, List.countP_nil]
  | cons p rest ih =>
    by_cases hp : p.1 = u
    · have e1 : mapSet u v (p :: rest) = (u, v) :: rest := by
        simp [mapSet, hp]
      have e2 : countKey ((u, v) :: rest) u = countKey rest u + 1 := by
        simp [countKey, List.countP_cons]
      have e3 : countKey (p :: rest) u = countKey rest u + 1 := by
        simp [countKey, List.countP_cons, hp]
      rw [e1, e2]
      rw [e3] at h
      exact h
    · have e1 : mapSet u v (p :: rest) = p :: mapSet u v rest := by
        simp [mapSet, hp]
      have e3 : countKey (p :: rest) u = countKey rest u := by
        simp [countKey, List.countP_cons, hp]
      have e4 : countKey (p :: mapSet u v rest) u = countKey (mapSet u v rest) u := by
        simp [countKey, List.countP_cons, hp]
      rw [e1, e4]
      rw [e3] at h
      exact ih h

theorem countKey_mapSet_le_one {α : Type} (k u : String) (v : α) (m : List (String × α))
    (h : countKey m u ≤ 1) : countKey (mapSet k v m) u ≤ 1 := by
  by_cases hk : k = u
  · subst hk
    exact countKey_mapSet_self k v m h
  · rw [countKey_mapSet_ne k u v m hk]
    exact h

theorem linkmc_registry_shape (now : Nat) (raw userId : String) (w : World) :
    (linkmc now raw userId w).world.uuidDiscordMap = w.uuidDiscordMap
    ∨ ∃ uuid, (linkmc now raw userId w).world.uuidDiscordMap
        = mapSet uuid userId w.uuidDiscordMap := by
  unfold linkmc
  cases h : (getUuidByCode now (jsToUpper raw) w.verificationCodes).1 with
  | none => left; simp [h]
  | some uuid => right; exact ⟨uuid, by simp [h]⟩

theorem generateCode_uuidDiscordMap (now : Nat) (uf : Option String) (rnd : String)
    (w : World) : (generateCode now uf rnd w).world.uuidDiscordMap = w.uuidDiscordMap := by
  by_cases h0 : jsTruthy uf = true
  · by_cases h1 : mapHas w.uuidDiscordMap (uf.getD "") = true <;>
      simp [generateCode, h0, h1]
  · simp [generateCode, h0]

theorem sendUpdate_uuidDiscordMap (env : Env) (uf mf cr : Option String) (so : Bool)
    (w : World) : (sendUpdate env uf mf cr so w).world.uuidDiscordMap = w.uuidDiscordMap := by
  unfold sendUpdate
  repeat' split
  all_goals try simp
  all_goals rcases hmc : mapGet w.uuidChannelMap (uf.getD "") with _ | cid
  all_goals simp only [hmc]
  all_goals try split_ifs
  all_goals simp

/-- C9: the Account Link Registry keeps at most one binding per uuid
(linking preserves the at-most-one invariant and the other handlers never
touch the registry), a linked uuid never becomes unlinked, and a second
successful redemption for an already-linked uuid silently succeeds and
overwrites the previous identifier. -/
theorem accountLink_single_identity :
    (∀ (w : World) (u : String) (now : Nat) (raw userId : String),
        countKey w.uuidDiscordMap u ≤ 1 →
        countKey (linkmc now raw userId w).world.uuidDiscordMap u ≤ 1)
    ∧ (∀ (now : Nat) (uf : Option String) (rnd : String) (w : World),
        (generateCode now uf rnd w).world.uuidDiscordMap = w.uuidDiscordMap)
    ∧ (∀ (env : Env) (uf mf cr : Option String) (so : Bool) (w : World),
        (sendUpdate env uf mf cr so w).world.uuidDiscordMap = w.uuidDiscordMap)
    ∧ (∀ (w : World) (u x : String) (now : Nat) (raw userId : String),
        mapGet w.uuidDiscordMap u = some x →
        ∃ y, mapGet (linkmc now raw userId w).world.uuidDiscordMap u = some y)
    ∧ (∀ (w : World) (u raw1 raw2 A B : String) (now1 now2 e1 e2 : Nat),
        mapGet w.verificationCodes (jsToUpper raw1) = some ⟨u, e1⟩ → now1 ≤ e1 →
        mapGet (linkmc now1 raw1 A w).world.verificationCodes (jsToUpper raw2)
            = some ⟨u, e2⟩ → now2 ≤ e2 →
        (linkmc now1 raw1 A w).resp.ok = true
        ∧ (linkmc now2 raw2 B (linkmc now1 raw1 A w).world).resp.ok = true
        ∧ mapGet (linkmc now2 raw2 B (linkmc now1 raw1 A w).world).world.uuidDiscordMap u
            = some B) := by
  refine ⟨?_, generateCode_uuidDiscordMap, sendUpdate_uuidDiscordMap, ?_, ?_⟩
  · intro w u now raw userId h
    rcases linkmc_registry_shape now raw userId w with hs | ⟨uuid, hs⟩
    · rw [hs]; exact h
    · rw [hs]; exact countKey_mapSet_le_one uuid u userId w.uuidDiscordMap h
  · intro w u x now raw userId h
    rcases linkmc_registry_shape now raw userId w with hs | ⟨uuid, hs⟩
    · exact ⟨x, by rw [hs]; exact h⟩
    · by_cases hu : uuid = u
      · subst hu
        exact ⟨userId, by rw [hs]; exact mapGet_mapSet_self uuid userId w.uuidDiscordMap⟩
      · exact ⟨x, by rw [hs, mapGet_mapSet_ne uuid u userId w.uuidDiscordMap hu]; exact h⟩
  · intro w u raw1 raw2 A B now1 now2 e1 e2 h1 hn1 h2 hn2
    have e1out := linkmc_success now1 raw1 A u e1 w h1 hn1
    have hok1 : (linkmc now1 raw1 A w).resp.ok = true := by rw [e1out]
    have e2out := linkmc_success now2 raw2 B u e2 (linkmc now1 raw1 A w).world h2 hn2
    refine ⟨hok1, by rw [e2out], ?_⟩
    rw [e2out]
    simp [mapGet_mapSet_self]

/-- Witness for C9: two codes for the same uuid redeemed by users `"A"`
then `"B"`; both succeed and the registry ends holding `"B"`. -/
theorem accountLink_single_identity_witness :
    (linkmc 0 "aa" "A" ⟨[], [], [("AA", ⟨"u", 100⟩), ("BB", ⟨"u", 200⟩)], []⟩).resp.ok = true
    ∧ mapGet (linkmc 50 "bb" "B" (linkmc 0 "aa" "A"
        ⟨[], [], [("AA", ⟨"u", 100⟩), ("BB", ⟨"u", 200⟩)], []⟩).world).world.uuidDiscordMap "u"
        = some "B" := by
  have h := accountLink_single_identity.2.2.2.2
    ⟨[], [], [("AA", ⟨"u", 100⟩), ("BB", ⟨"u", 200⟩)], []⟩ "u" "aa" "bb" "A" "B" 0 50 100 200
    (by decide) (by decide) (by decide) (by decide)
  exact ⟨h.1, h.2.2⟩

/-- C10: when the generator draws a code string equal to a live code held
for a different uuid, `Map.set` silently replaces the earlier entry: the
response carries the colliding code, the store now binds it to the later
uuid, no redemption can ever return the earlier uuid, a redemption within
the expiry returns the later uuid, and any redemption leaves the code
unbound afterwards. -/
theorem generateCode_collision (now : Nat) (w : World) (c u1 u2 rnd36 : String) (e1 : Nat)
    (_hold : mapGet w.verificationCodes c = some ⟨u1, e1⟩)
    (hu2 : u2 ≠ "") (hnl : mapHas w.uuidDiscordMap u2 = false)
    (hc : genCode rnd36 = c) (hne : u1 ≠ u2) :
    (generateCode now (some u2) rnd36 w).resp.code = some c
    ∧ (generateCode now (some u2) rnd36 w).resp.success = some true
    ∧ mapGet (generateCode now (some u2) rnd36 w).world.verificationCodes c
        = some ⟨u2, now + 300000⟩
    ∧ (∀ now2, (getUuidByCode now2 c
        (generateCode now (some u2) rnd36 w).world.verificationCodes).1 ≠ some u1)
    ∧ (∀ now2, now2 ≤ now + 300000 → (getUuidByCode now2 c
        (generateCode now (some u2) rnd36 w).world.verificationCodes).1 = some u2)
    ∧ (∀ now2, mapGet (getUuidByCode now2 c
        (generateCode now (some u2) rnd36 w).world.verificationCodes).2 c = none) := by
  have hgen : generateCode now (some u2) rnd36 w =
      ⟨⟨200, some true, some c, some 300, none⟩,
        { w with verificationCodes := mapSet c ⟨u2, now + 300000⟩ w.verificationCodes }⟩ := by
    simp [generateCode, jsTruthy, hu2, hnl, hc]
  rw [hgen]
  have hvc : mapGet (mapSet c ⟨u2, now + 300000⟩ w.verificationCodes) c
      = some ⟨u2, now + 300000⟩ := mapGet_mapSet_self c ⟨u2, now + 300000⟩ w.verificationCodes
  refine ⟨rfl, rfl, hvc, ?_, ?_, ?_⟩
  · intro now2
    unfold getUuidByCode
    rw [hvc]
    by_cases hlt : now2 > now + 300000 <;> simp [hlt, Ne.symm hne]
  · intro now2 h2
    unfold getUuidByCode
    rw [hvc]
    simp [not_lt.mpr h2]
  · intro now2
    unfold getUuidByCode
    rw [hvc]
    by_cases hlt : now2 > now + 300000 <;> simp [hlt, mapGet_mapDelete_self]

/-- Witness for C10: the draw `"0.abc123zz"` reproduces the live code
`"ABC123"` issued for `"u1"`; issuing it for `"u2"` and redeeming yields
`"u2"`. -/
theorem generateCode_collision_witness :
    (generateCode 100 (some "u2") "0.abc123zz"
        ⟨[], [], [("ABC123", ⟨"u1", 999⟩)], []⟩).resp.code = some "ABC123"
    ∧ (getUuidByCode 200 "ABC123" (generateCode 100 (some "u2") "0.abc123zz"
        ⟨[], [], [("ABC123", ⟨"u1", 999⟩)], []⟩).world.verificationCodes).1 = some "u2" := by
  have h := generateCode_collision 100 ⟨[], [], [("ABC123", ⟨"u1", 999⟩)], []⟩
    "ABC123" "u1" "u2" "0.abc123zz" 999 (by decide) (by decide) (by decide) (by decide)
    (by decide)
  exact ⟨h.1, h.2.2.2.2.1 200 (by decide)⟩

end DonutBot
